import Mathlib

/-
Verification development for the varlociraptor-inspect decoding core
(src/varlociraptor_inspect/plotting.py).

Shallow embedding conventions:
  * Python floats carried by record fields are modelled as exact rationals,
    with an explicit constructor for the +infinity sentinel where the code
    distinguishes it (`PFloat`).  Probabilities are real numbers.
  * Python dicts with insertion order are modelled as association lists.
  * Python strings are modelled as Lean `String` / `List Char`; the ASCII
    fragment of `\d` / `str.isdigit` / `[a-zA-Z]` is modelled with
    `Char.isDigit` / `Char.isAlpha` (all data handled by this program is
    ASCII).
  * Fallible code (`raise ValueError`) is modelled with `Except`.
-/

deriving instance DecidableEq for Except

/-! ## ProbabilityConversion (plotting.py lines 6-10, 28) -/

/-- A Python float value as it arrives in a record field: either a finite
value (modelled exactly as a rational) or the `float("inf")` sentinel. -/
inductive PFloat where
  | fin (q : ℚ)
  | inf
deriving DecidableEq

/-- `10 ** (-phred_value / 10)` for a finite phred value (plotting.py line 10). -/
noncomputable def phred_prob (q : ℚ) : ℝ := (10 : ℝ) ^ (-(q : ℝ) / 10)

/-- Value of `10 ** (-phred_value / 10)` on a non-None Python float.  For
`phred_value = float("inf")` the Python expression evaluates to exactly `0.0`
(and line 28 additionally short-circuits that case to `0.0`). -/
noncomputable def probOfPFloat : PFloat → ℝ
  | .fin q => phred_prob q
  | .inf => 0

/-- `phred_to_prob` (plotting.py lines 6-10): `None` propagates as `None`,
otherwise `10 ** (-phred_value / 10)`. -/
noncomputable def phred_to_prob : Option PFloat → Option ℝ
  | none => none
  | some v => some (probOfPFloat v)

/-! ## EventProbabilityExtractor (plotting.py lines 13-31) -/

/-- One row of the event-probability table. -/
structure EventRow where
  event : String
  probability : ℝ

/-- The data carried by the `ValueError` raised at plotting.py lines 22-25:
the offending key and the number of values found. -/
structure MalformedField where
  key : String
  found : Nat
deriving DecidableEq

/-- Decimal digit string to natural number, as Python `int` on a digit string. -/
def digitsToNat (ds : List Char) : Nat :=
  ds.foldl (fun n c => 10 * n + (c.toNat - '0'.toNat)) 0

/-- One step of Python `str.replace(pat, rep)` scanning: replace every
left-to-right non-overlapping occurrence of `pat`.  The fuel argument is the
length of the scanned list (each step consumes at least one character when
`pat` is nonempty, the only way this development calls it). -/
def pyReplaceAux : Nat → List Char → List Char → List Char → List Char
  | 0, _, _, _ => []
  | _, [], _, _ => []
  | fuel + 1, c :: cs, pat, rep =>
    if pat.isPrefixOf (c :: cs) then
      rep ++ pyReplaceAux fuel ((c :: cs).drop pat.length) pat rep
    else
      c :: pyReplaceAux fuel cs pat rep

/-- Python `s.replace(pat, rep)` for nonempty `pat`. -/
def pyReplace (s pat rep : List Char) : List Char :=
  pyReplaceAux s.length s pat rep

/-- `event_name = key.replace("PROB_", "")` (plotting.py line 19). -/
def event_name (k : String) : String :=
  String.mk (pyReplace k.data "PROB_".data [])

/-- `key.startswith("PROB_")` (plotting.py line 18). -/
def startsPROB (k : String) : Bool :=
  "PROB_".data.isPrefixOf k.data

/-- The loop of `visualize_event_probabilities` (plotting.py lines 17-30) over
the insertion-ordered `record.info` mapping: keys starting with `PROB_` are
selected, a value of length ≠ 1 raises (lines 22-25), otherwise one row per
key is emitted with the line-28 probability. -/
noncomputable def visualize_event_probabilities :
    List (String × List PFloat) → Except MalformedField (List EventRow)
  | [] => .ok []
  | (k, v) :: rest =>
    if startsPROB k then
      match v with
      | [x] =>
        (visualize_event_probabilities rest).map
          (fun rows => ⟨event_name k, probOfPFloat x⟩ :: rows)
      | _ => .error ⟨k, v.length⟩
    else
      visualize_event_probabilities rest

/-! ## FrequencyDistributionParser (plotting.py lines 49-92) -/

/-- Python `s.split(sep)` for a single-character separator. -/
def splitOnChar (sep : Char) : List Char → List (List Char)
  | [] => [[]]
  | c :: cs =>
    let r := splitOnChar sep cs
    if c = sep then [] :: r
    else
      match r with
      | t :: ts => (c :: t) :: ts
      | [] => [[c]]

/-- An exact decimal value `mant / 10 ^ fdigits`, the result of parsing a
decimal literal.  Kept unnormalized (integer mantissa and count of fraction
digits) so that parsing stays kernel-computable; `Dec10.toRat` gives the
rational value it denotes. -/
structure Dec10 where
  mant : Int
  fdigits : Nat
deriving DecidableEq

/-- The rational value denoted by a parsed decimal. -/
def Dec10.toRat (d : Dec10) : ℚ :=
  (d.mant : ℚ) / (10 : ℚ) ^ d.fdigits

/-- Python `float(s)` on the plain decimal literals that occur in AFD fields:
optional sign, integer digits, optional fractional part (at least one digit
overall); everything else raises, modelled as `none`.  (The `inf`/`nan`/
exponent spellings accepted by Python `float` do not occur in AFD data and
are not modelled.) -/
def pyFloat (cs : List Char) : Option Dec10 :=
  let sb : Int × List Char :=
    match cs with
    | '-' :: rest => (-1, rest)
    | '+' :: rest => (1, rest)
    | _ => (1, cs)
  let ip := sb.2.takeWhile Char.isDigit
  match sb.2.drop ip.length with
  | [] => if ip.isEmpty then none else some ⟨sb.1 * (digitsToNat ip : Int), 0⟩
  | '.' :: fp =>
    if fp.all Char.isDigit && !(ip.isEmpty && fp.isEmpty) then
      some ⟨sb.1 * ((digitsToNat ip * 10 ^ fp.length + digitsToNat fp : Nat) : Int), fp.length⟩
    else none
  | _ => none

/-- The `Type` tag of an AFD data row: `"Distribution"` rows versus the single
`"ML Estimate"` row (plotting.py lines 71 and 90). -/
inductive PKind where
  | Distribution
  | PointEstimate
deriving DecidableEq

/-- One AFD data row (plotting.py lines 67-73 / 86-92). -/
structure AFDPoint where
  freq : ℚ
  prob : ℝ
  kind : PKind

/-- One comma-separated part of an AFD entry (plotting.py lines 62-65):
a part without `=` is skipped (`ok none`); a part with `=` must split into
exactly two `float`-parseable pieces, anything else raises. -/
def parseTok (t : List Char) : Except Unit (Option (Dec10 × Dec10)) :=
  if t.contains '=' then
    match splitOnChar '=' t with
    | [a, b] =>
      match pyFloat a, pyFloat b with
      | some f, some p => .ok (some (f, p))
      | _, _ => .error ()
    | _ => .error ()
  else .ok none

/-- The AFD parsing loop over all parts, stopping at the first raising part. -/
def parseToks : List (List Char) → Except Unit (List (Dec10 × Dec10))
  | [] => .ok []
  | t :: ts =>
    match parseTok t with
    | .error e => .error e
    | .ok r =>
      match parseToks ts with
      | .error e => .error e
      | .ok rest => .ok (match r with | some fp => fp :: rest | none => rest)

/-- All comma-separated parts of all AFD entry strings, in encounter order
(plotting.py lines 60-61). -/
def distTokens (entries : List String) : List (List Char) :=
  entries.flatMap (fun e => splitOnChar ',' e.data)

/-- The (frequency, phred) pairs parsed from the AFD field. -/
def parseAFDq (entries : List String) : Except Unit (List (Dec10 × Dec10)) :=
  parseToks (distTokens entries)

/-- The `Distribution` rows built from the parsed pairs (plotting.py
lines 65-73): probability is `phred_to_prob(float(phred))`. -/
noncomputable def afdPoints (ps : List (Dec10 × Dec10)) : List AFDPoint :=
  ps.map (fun fp => ⟨fp.1.toRat, phred_prob fp.2.toRat, .Distribution⟩)

/-- `visualize_allele_frequency_distribution` data construction (plotting.py
lines 59-92): parse all parts into `Distribution` rows, then append one
`ML Estimate` row at `af_ml` whose probability is the probability of the
first row with `abs(freq - af_ml) < 0.001`, defaulting to `1.0`
(lines 77-84). -/
noncomputable def visualize_allele_frequency_distribution
    (entries : List String) (af_ml : ℚ) : Except Unit (List AFDPoint) :=
  (parseAFDq entries).map (fun ps =>
    let data := afdPoints ps
    let ml_prob :=
      ((data.find? (fun d => decide (|d.freq - af_ml| < 1 / 1000))).map AFDPoint.prob).getD 1
    data ++ [⟨af_ml, ml_prob, .PointEstimate⟩])

/-! ## ObservationStringDecoder (plotting.py lines 141-229) -/

/-- The groups of one match of the pattern
`(\d+)([a-zA-Z]{2})(.)(.)(.)(.)(.)(.)(.)(.)` (plotting.py line 159):
the digit run, the two letters, and the 8-character trailing block. -/
structure ObsTok where
  countDigits : List Char
  alleleChar : Char
  oddsChar : Char
  flags : List Char
deriving DecidableEq

/-- Attempt to match the observation pattern at the head of the character
list: a nonempty (greedy) digit run, two ASCII letters, then 8 arbitrary
non-newline characters (`.` in a Python regex does not match a newline).
Returns the match and the remaining characters. -/
def tryTok (cs : List Char) : Option (ObsTok × List Char) :=
  let ds := cs.takeWhile Char.isDigit
  if ds.isEmpty then none
  else
    match cs.drop ds.length with
    | a :: b :: rest =>
      if a.isAlpha && b.isAlpha && decide (8 ≤ rest.length)
          && (rest.take 8).all (fun c => c != '\n') then
        some (⟨ds, a, b, rest.take 8⟩, rest.drop 8)
      else none
    | _ => none

/-- `re.findall` scanning: try to match at each position, consume a match
wholly, otherwise advance one character.  Fuel is the length of the list
(every step consumes at least one character). -/
def scanAux : Nat → List Char → List ObsTok
  | 0, _ => []
  | _, [] => []
  | fuel + 1, c :: cs =>
    match tryTok (c :: cs) with
    | some (t, rest) => t :: scanAux fuel rest
    | none => scanAux fuel cs

/-- All pattern matches in a character list, left to right, non-overlapping. -/
def scanChars (cs : List Char) : List ObsTok :=
  scanAux cs.length cs

/-- `re.findall(pattern, obs_string)` (plotting.py line 160). -/
def obsTokens (s : String) : List ObsTok :=
  scanChars s.data

/-- `strand_map.get(c, c)` (plotting.py line 162). -/
def strand_map (c : Char) : String :=
  if c = '+' then "Forward strand"
  else if c = '-' then "Reverse strand"
  else if c = '*' then "Both strands"
  else String.singleton c

/-- `read_pos_map.get(c, c)` (plotting.py lines 163-167). -/
def read_pos_map (c : Char) : String :=
  if c = '^' then "Most common position"
  else if c = '*' then "Other position"
  else if c = '.' then "Irrelevant position"
  else String.singleton c

/-- `orientation_map.get(c, c)` (plotting.py lines 168-173). -/
def orientation_map (c : Char) : String :=
  if c = '>' then "F1R2 orientation"
  else if c = '<' then "F2R1 orientation"
  else if c = '*' then "Unknown orientation"
  else if c = '!' then "Non-standard orientation"
  else String.singleton c

/-- `softclip_map.get(c, c)` (plotting.py line 174). -/
def softclip_map (c : Char) : String :=
  if c = '$' then "Soft clipped"
  else if c = '.' then "No soft clipping"
  else String.singleton c

/-- `indel_map.get(c, c)` (plotting.py line 175). -/
def indel_map (c : Char) : String :=
  if c = '*' then "Contains indel"
  else if c = '.' then "No indel"
  else String.singleton c

/-- `kr_names.get(kass, kass)` (plotting.py lines 192-205, 217): both cases of
each known odds letter map to the same label; anything else passes through. -/
def kr_names (c : Char) : String :=
  if c = 'N' ∨ c = 'n' then "None"
  else if c = 'E' ∨ c = 'e' then "Equal"
  else if c = 'B' ∨ c = 'b' then "Barely"
  else if c = 'P' ∨ c = 'p' then "Positive"
  else if c = 'S' ∨ c = 's' then "Strong"
  else if c = 'V' ∨ c = 'v' then "Very Strong"
  else String.singleton c

/-- Edit distance from the single character `match[2]` (plotting.py
lines 207-212): `"."` means 0, a digit means its value, anything else 0. -/
def editDistOf (c : Char) : Nat :=
  if c = '.' then 0
  else if c.isDigit then c.toNat - '0'.toNat
  else 0

/-- One decoded observation entry (plotting.py lines 214-224). -/
structure ObsEntry where
  obs_index : Nat
  count : Nat
  posterior_odds : String
  strand : String
  read_position : String
  orientation : String
  softclip : String
  indel : String
  edit_distance : Nat
deriving DecidableEq

/-- Build the `obs_entry` dict for the match at (0-based) position `idx`
among all matches (plotting.py lines 177-224).  The 8-character block is
`match[2..9]`; the code reads `match[2]` (block position 0) as the edit
distance character and `match[5..9]` (block positions 3-7, the final five)
as the strand, orientation, read-position, softclip and indel flags. -/
def mkEntry (idx : Nat) (t : ObsTok) : ObsEntry :=
  { obs_index := idx
    count := digitsToNat t.countDigits
    posterior_odds := kr_names t.oddsChar
    strand := strand_map (t.flags.getD 3 ' ')
    read_position := read_pos_map (t.flags.getD 5 ' ')
    orientation := orientation_map (t.flags.getD 4 ' ')
    softclip := softclip_map (t.flags.getD 6 ' ')
    indel := indel_map (t.flags.getD 7 ' ')
    edit_distance := editDistOf (t.flags.getD 0 ' ') }

/-- `odds_code[0].upper() == "A"` (plotting.py lines 189, 226). -/
def isAltTok (t : ObsTok) : Bool :=
  t.alleleChar.toUpper == 'A'

/-- The `for idx, match in enumerate(matches)` loop (plotting.py
lines 177-229): a single index counter shared across both groups; each entry
is appended to the alternate group if the first letter uppercases to `A`,
otherwise to the reference group. -/
def obsLoop : Nat → List ObsTok → List ObsEntry × List ObsEntry
  | _, [] => ([], [])
  | i, t :: ts =>
    if isAltTok t then
      ((obsLoop (i + 1) ts).1, mkEntry i t :: (obsLoop (i + 1) ts).2)
    else
      (mkEntry i t :: (obsLoop (i + 1) ts).1, (obsLoop (i + 1) ts).2)

/-- Decode one observation string into (reference group, alternate group). -/
def obsDecode (s : String) : List ObsEntry × List ObsEntry :=
  obsLoop 0 (obsTokens s)

/-- Decode the observation field value: `None` and the placeholder `"."` are
replaced by the empty string (plotting.py lines 151-153) before decoding. -/
def obsDecodeField (o : Option String) : List ObsEntry × List ObsEntry :=
  obsDecode (match o with
    | none => ""
    | some s => if s = "." then "" else s)

/-! ## PanelAggregator (plotting.py lines 231-247, 261-271) -/

/-- One row of the chart-ready panel table (plotting.py lines 264-271). -/
structure PanelCell where
  metric : String
  category : String
  count : Nat
  obs_index : Nat
deriving DecidableEq

/-- The fixed metric order (plotting.py lines 231-239). -/
def metrics : List String :=
  ["Posterior Odds", "Strand", "Read Position", "Orientation", "Softclip",
   "Indel", "Edit Distance"]

/-- `str(obs[metric])` for the seven metric keys of the entry dict;
`Edit Distance` holds an int and is stringified, the rest are strings. -/
def categoryOf (o : ObsEntry) (m : String) : String :=
  if m = "Posterior Odds" then o.posterior_odds
  else if m = "Strand" then o.strand
  else if m = "Read Position" then o.read_position
  else if m = "Orientation" then o.orientation
  else if m = "Softclip" then o.softclip
  else if m = "Indel" then o.indel
  else if m = "Edit Distance" then toString o.edit_distance
  else ""

/-- The nested row-building loop of `create_panel` (plotting.py
lines 261-271): for each observation, one cell per metric in the fixed
order, carrying the observation's count and index. -/
def panelRows : List ObsEntry → List PanelCell
  | [] => []
  | o :: os =>
    metrics.map (fun m => ⟨m, categoryOf o m, o.count, o.obs_index⟩) ++ panelRows os

/-- `sum(o["count"] for o in observations)`. -/
def sumCounts (os : List ObsEntry) : Nat :=
  (os.map ObsEntry.count).sum

/-- `max_count` (plotting.py lines 244-247): the shared y-scale bound.  The
Python `or 0` on each summand is the identity on a non-negative sum. -/
def max_count (refs alts : List ObsEntry) : Nat :=
  max (sumCounts refs) (sumCounts alts)

/-! ## Helper lemmas -/

theorem phred_prob_zero : phred_prob 0 = 1 := by
  simp [phred_prob]

theorem phred_prob_ten : phred_prob 10 = 1 / 10 := by
  have he : (-(((10 : ℚ) : ℝ)) / 10) = (-1 : ℝ) := by norm_num
  rw [phred_prob, he, Real.rpow_neg_one]
  norm_num

theorem obsLoop_index_perm (ts : List ObsTok) :
    ∀ i : Nat,
      (((obsLoop i ts).1 ++ (obsLoop i ts).2).map ObsEntry.obs_index).Perm
        (List.range' i ts.length) := by
  induction ts with
  | nil => intro i; simp [obsLoop]
  | cons t ts ih =>
    intro i
    rw [List.length_cons, List.range'_succ]
    by_cases hA : isAltTok t
    · simp only [obsLoop, hA, if_true]
      refine List.Perm.trans ?_ ((ih (i + 1)).cons i)
      simp only [List.map_append, List.map_cons]
      exact List.perm_middle
    · simp only [obsLoop, hA, if_false]
      refine List.Perm.trans ?_ ((ih (i + 1)).cons i)
      simp only [List.map_append, List.map_cons]
      exact List.Perm.refl _

theorem obsLoop_index_mem (ts : List ObsTok) :
    ∀ (i j : Nat) (h : j < ts.length),
      (isAltTok (ts.get ⟨j, h⟩) = true →
        mkEntry (i + j) (ts.get ⟨j, h⟩) ∈ (obsLoop i ts).2) ∧
      (isAltTok (ts.get ⟨j, h⟩) = false →
        mkEntry (i + j) (ts.get ⟨j, h⟩) ∈ (obsLoop i ts).1) := by
  induction ts with
  | nil => intro i j h; exact absurd h (by simp)
  | cons t ts ih =>
    intro i j h
    cases j with
    | zero =>
      constructor
      · intro hA
        have hA' : isAltTok t = true := hA
        simp [obsLoop, hA']
      · intro hA
        have hA' : isAltTok t = false := hA
        simp [obsLoop, hA']
    | succ j =>
      have h' : j < ts.length := by simpa using h
      have hidx : i + (j + 1) = (i + 1) + j := by omega
      have hget : (t :: ts).get ⟨j + 1, h⟩ = ts.get ⟨j, h'⟩ := rfl
      rw [hget, hidx]
      refine ⟨fun hA => ?_, fun hA => ?_⟩ <;>
        by_cases hAt : isAltTok t <;>
          simp only [obsLoop, hAt, if_true, if_false] <;>
            first
              | exact List.mem_cons_of_mem _ ((ih (i + 1) j h').1 hA)
              | exact (ih (i + 1) j h').1 hA
              | exact List.mem_cons_of_mem _ ((ih (i + 1) j h').2 hA)
              | exact (ih (i + 1) j h').2 hA

theorem parseToks_ok_eq (ts : List (List Char)) :
    ∀ ps, parseToks ts = .ok ps →
      ps = ts.filterMap (fun t => (parseTok t).toOption.join) := by
  induction ts with
  | nil =>
    intro ps h
    simp only [parseToks, Except.ok.injEq] at h
    simp [← h]
  | cons t ts ih =>
    intro ps h
    simp only [parseToks] at h
    cases hpt : parseTok t with
    | error e => rw [hpt] at h; exact absurd h (by simp)
    | ok r =>
      rw [hpt] at h
      cases hps : parseToks ts with
      | error e => rw [hps] at h; exact absurd h (by simp)
      | ok rest =>
        rw [hps] at h
        simp only [Except.ok.injEq] at h
        have hjoin : (parseTok t).toOption.join = r := by
          rw [hpt]; cases r <;> rfl
        cases r with
        | none =>
          rw [← h]
          show rest = List.filterMap _ (t :: ts)
          rw [List.filterMap_cons, hjoin]
          exact ih rest hps
        | some fp =>
          rw [← h]
          show fp :: rest = List.filterMap _ (t :: ts)
          rw [List.filterMap_cons, hjoin, ih rest hps]

theorem afdPoints_kind (ps : List (Dec10 × Dec10)) :
    ∀ d ∈ afdPoints ps, d.kind = PKind.Distribution := by
  intro d hd
  simp only [afdPoints, List.mem_map] at hd
  obtain ⟨fp, -, rfl⟩ := hd
  rfl

/-! ## Claim theorems -/

/-- C1 (counterexample): the claim is false on the code.  The observation
pattern requires an 8-character block after the two letters, so the claimed
input `"3As.*>^.."` (only 6 trailing characters) matches no token at all and
decodes to two empty groups, not to one Alternate record; and on a block
whose first two characters are digits the decoder reads only the first digit
as the edit distance (`1`, not the multi-digit `12`). -/
theorem C1_counterexample :
    obsDecode "3As.*>^.." = ([], []) ∧
    (obsDecode "3As12.*>^..").2.map ObsEntry.edit_distance = [1] :=
  ⟨by decide, by decide⟩

/-- C1 (amended): decode reads the edit distance from exactly the first
character of the 8-character trailing block and the five flags from its
final five positions (block positions 3-7); block positions 1 and 2 are
ignored.  `decode("3As...*>^..")` (an 8-character block) yields exactly one
Alternate record with count 3, edit distance 0, posterior odds Strong,
strand Both, orientation F1R2, read position MostCommon, softclip
NotClipped, indel NoIndel, and an empty Reference group. -/
theorem C1_edit_distance_single_char :
    (∀ (i : Nat) (ds : List Char) (a b : Char) (f g : List Char),
        f.getD 0 ' ' = g.getD 0 ' ' → f.getD 3 ' ' = g.getD 3 ' ' →
        f.getD 4 ' ' = g.getD 4 ' ' → f.getD 5 ' ' = g.getD 5 ' ' →
        f.getD 6 ' ' = g.getD 6 ' ' → f.getD 7 ' ' = g.getD 7 ' ' →
        mkEntry i ⟨ds, a, b, f⟩ = mkEntry i ⟨ds, a, b, g⟩) ∧
    (∀ (i : Nat) (ds : List Char) (a b c0 : Char) (rest7 : List Char),
        (mkEntry i ⟨ds, a, b, c0 :: rest7⟩).edit_distance =
          (if c0 = '.' then 0 else if c0.isDigit then c0.toNat - '0'.toNat else 0)) ∧
    obsDecode "3As...*>^.." =
      ([], [⟨0, 3, "Strong", "Both strands", "Most common position",
            "F1R2 orientation", "No soft clipping", "No indel", 0⟩]) := by
  refine ⟨?_, fun i ds a b c0 rest7 => rfl, by decide⟩
  intro i ds a b f g h0 h3 h4 h5 h6 h7
  simp only [mkEntry]
  rw [h0, h3, h4, h5, h6, h7]

/-- C1 witness: the position-irrelevance part of the amended claim at a
concrete pair of blocks differing only at the ignored positions 1 and 2. -/
theorem C1_edit_distance_single_char_witness :
    mkEntry 0 ⟨['3'], 'A', 's', ['.', 'x', 'y', '*', '>', '^', '.', '.']⟩ =
      mkEntry 0 ⟨['3'], 'A', 's', ['.', 'u', 'v', '*', '>', '^', '.', '.']⟩ :=
  C1_edit_distance_single_char.1 0 ['3'] 'A' 's'
    ['.', 'x', 'y', '*', '>', '^', '.', '.'] ['.', 'u', 'v', '*', '>', '^', '.', '.']
    rfl rfl rfl rfl rfl rfl

/-- C2 (counterexample): the claim is false on the code.  For the key
`"PROB_APROB_B"` the extractor emits event name `"AB"` (Python
`str.replace` removes every occurrence of `"PROB_"`), not `"APROB_B"` as
removing the prefix from the front only would give. -/
theorem C2_counterexample :
    (visualize_event_probabilities [("PROB_APROB_B", [PFloat.fin 0])]).map
        (fun rows => rows.map EventRow.event) = .ok ["AB"] ∧
    ("AB" : String) ≠ "APROB_B" := by
  constructor
  · have hp : startsPROB "PROB_APROB_B" = true := by decide
    simp only [visualize_event_probabilities, hp, if_true, Except.map]
    have : event_name "PROB_APROB_B" = "AB" := by decide
    simp [this]
  · decide

/-- C2 (amended): for every info mapping on which extraction succeeds, the
emitted event names are, in order, the keys starting with `PROB_` with every
occurrence of the substring `PROB_` removed (Python `str.replace`
semantics), not only the front occurrence. -/
theorem C2_replace_all_occurrences (info : List (String × List PFloat))
    (rows : List EventRow)
    (h : visualize_event_probabilities info = .ok rows) :
    rows.map EventRow.event =
      (info.filter (fun kv => startsPROB kv.1)).map (fun kv => event_name kv.1) := by
  induction info generalizing rows with
  | nil =>
    simp only [visualize_event_probabilities, Except.ok.injEq] at h
    simp [← h]
  | cons kv rest ih =>
    obtain ⟨k, v⟩ := kv
    by_cases hp : startsPROB k
    · match v with
      | [] =>
        rw [show visualize_event_probabilities ((k, []) :: rest) =
              .error ⟨k, 0⟩ from by simp [visualize_event_probabilities, hp]] at h
        exact absurd h (by simp)
      | [x] =>
        simp only [visualize_event_probabilities, hp, if_true, Except.map] at h
        cases hrest : visualize_event_probabilities rest with
        | error e => rw [hrest] at h; exact absurd h (by simp)
        | ok rows' =>
          rw [hrest] at h
          simp only [Except.ok.injEq] at h
          rw [← h]
          simp only [List.map_cons, List.filter_cons, hp, if_true, ih rows' hrest]
      | x :: y :: tl =>
        rw [show visualize_event_probabilities ((k, x :: y :: tl) :: rest) =
              .error ⟨k, (x :: y :: tl).length⟩ from by
            simp [visualize_event_probabilities, hp]] at h
        exact absurd h (by simp)
    · simp only [visualize_event_probabilities, hp, if_false] at h
      rw [List.filter_cons, if_neg hp]
      exact ih rows h

/-- C2 witness: the amended claim at the single-key mapping `PROB_X`. -/
theorem C2_replace_all_occurrences_witness :
    ([(⟨event_name "PROB_X", probOfPFloat (PFloat.fin 0)⟩ : EventRow)].map
        EventRow.event) =
      (([("PROB_X", [PFloat.fin 0])] : List (String × List PFloat)).filter
          (fun kv => startsPROB kv.1)).map (fun kv => event_name kv.1) :=
  C2_replace_all_occurrences [("PROB_X", [PFloat.fin 0])]
    [⟨event_name "PROB_X", probOfPFloat (PFloat.fin 0)⟩]
    (by have hp : startsPROB "PROB_X" = true := by decide
        simp [visualize_event_probabilities, hp, Except.map])

/-- C3: `phred_to_prob` propagates `None` as `None`, maps `+infinity` to
exactly `0.0`, and maps every finite phred value `p` to `10 ^ (-p / 10)`. -/
theorem C3_phred_to_prob_cases :
    phred_to_prob none = none ∧
    phred_to_prob (some PFloat.inf) = some 0 ∧
    (∀ q : ℚ, phred_to_prob (some (PFloat.fin q)) =
      some ((10 : ℝ) ^ (-(q : ℝ) / 10))) :=
  ⟨rfl, rfl, fun _ => rfl⟩

/-- C9: the panel row builder expands every observation entry into exactly 7
cells, one per metric in the fixed order [Posterior Odds, Strand, Read
Position, Orientation, Softclip, Indel, Edit Distance], each carrying that
entry's count and index; and the shared scale bound equals
`max(sum of Reference counts, sum of Alternate counts)`, which is 0 for
empty input. -/
theorem C9_panel_aggregation :
    (∀ os : List ObsEntry, panelRows os = os.flatMap (fun o =>
      [⟨"Posterior Odds", o.posterior_odds, o.count, o.obs_index⟩,
       ⟨"Strand", o.strand, o.count, o.obs_index⟩,
       ⟨"Read Position", o.read_position, o.count, o.obs_index⟩,
       ⟨"Orientation", o.orientation, o.count, o.obs_index⟩,
       ⟨"Softclip", o.softclip, o.count, o.obs_index⟩,
       ⟨"Indel", o.indel, o.count, o.obs_index⟩,
       ⟨"Edit Distance", toString o.edit_distance, o.count, o.obs_index⟩])) ∧
    (∀ os : List ObsEntry, (panelRows os).length = 7 * os.length) ∧
    (∀ refs alts : List ObsEntry,
      max_count refs alts = max ((refs.map ObsEntry.count).sum)
        ((alts.map ObsEntry.count).sum)) ∧
    max_count [] [] = 0 := by
  have hflat : ∀ os : List ObsEntry, panelRows os = os.flatMap (fun o =>
      [⟨"Posterior Odds", o.posterior_odds, o.count, o.obs_index⟩,
       ⟨"Strand", o.strand, o.count, o.obs_index⟩,
       ⟨"Read Position", o.read_position, o.count, o.obs_index⟩,
       ⟨"Orientation", o.orientation, o.count, o.obs_index⟩,
       ⟨"Softclip", o.softclip, o.count, o.obs_index⟩,
       ⟨"Indel", o.indel, o.count, o.obs_index⟩,
       ⟨"Edit Distance", toString o.edit_distance, o.count, o.obs_index⟩]) := by
    intro os
    induction os with
    | nil => rfl
    | cons o os ih =>
      simp only [panelRows, List.flatMap_cons, ih]
      rfl
  refine ⟨hflat, fun os => ?_, fun refs alts => rfl, rfl⟩
  rw [hflat]
  induction os with
  | nil => rfl
  | cons o os ih =>
    simp only [List.flatMap_cons, List.length_append, ih]
    simp only [List.length_cons, List.length_nil]
    omega

/-- C10: a distribution token that contains `=` but is not a well-formed
`frequency=phred` pair makes the entire parse raise: a non-numeric side
(`"a=b"`) and a token with more than one `=` (`"0.5=1=2"`) both raise; the
skip-leniency covers only tokens containing no `=` at all. -/
theorem C10_malformed_pair_raises :
    visualize_allele_frequency_distribution ["a=b"] 0 = .error () ∧
    visualize_allele_frequency_distribution ["0.5=1=2"] 0 = .error () := by
  constructor
  · rw [visualize_allele_frequency_distribution,
      show parseAFDq ["a=b"] = .error () from by decide]
    rfl
  · rw [visualize_allele_frequency_distribution,
      show parseAFDq ["0.5=1=2"] = .error () from by decide]
    rfl

/-- C4: whenever some `PROB_`-keyed entry of the info mapping has a value of
length ≠ 1, extraction fails with an error identifying an offending key and
its found length; and when zero keys bear the prefix, extraction returns the
empty row sequence without failing. -/
theorem C4_malformed_prob_field :
    (∀ (info : List (String × List PFloat)) (k : String) (v : List PFloat),
        (k, v) ∈ info → startsPROB k = true → v.length ≠ 1 →
        ∃ (k' : String) (v' : List PFloat), (k', v') ∈ info ∧ startsPROB k' = true ∧
          v'.length ≠ 1 ∧
          visualize_event_probabilities info = .error ⟨k', v'.length⟩) ∧
    (∀ info : List (String × List PFloat),
        (∀ kv ∈ info, startsPROB kv.1 = false) →
        visualize_event_probabilities info = .ok []) := by
  constructor
  · intro info
    induction info with
    | nil => intro k v hmem; exact absurd hmem (by simp)
    | cons kv rest ih =>
      obtain ⟨k0, v0⟩ := kv
      intro k v hmem hpk hlen
      by_cases hp : startsPROB k0
      · match v0 with
        | [] =>
          exact ⟨k0, [], by simp, hp, by simp,
            by simp [visualize_event_probabilities, hp]⟩
        | [x] =>
          have hmem' : (k, v) ∈ rest := by
            rcases List.mem_cons.mp hmem with heq | hmem'
            · rw [Prod.mk.injEq] at heq
              obtain ⟨h1, h2⟩ := heq
              subst h2
              simp at hlen
            · exact hmem'
          obtain ⟨k', v', hm, hp', hl, herr⟩ := ih k v hmem' hpk hlen
          exact ⟨k', v', List.mem_cons_of_mem _ hm, hp', hl, by
            simp [visualize_event_probabilities, hp, herr, Except.map]⟩
        | x :: y :: tl =>
          exact ⟨k0, x :: y :: tl, by simp, hp, by simp,
            by simp [visualize_event_probabilities, hp]⟩
      · have hmem' : (k, v) ∈ rest := by
          rcases List.mem_cons.mp hmem with heq | hmem'
          · rw [Prod.mk.injEq] at heq
            obtain ⟨h1, h2⟩ := heq
            subst h1
            exact absurd hpk hp
          · exact hmem'
        obtain ⟨k', v', hm, hp', hl, herr⟩ := ih k v hmem' hpk hlen
        exact ⟨k', v', List.mem_cons_of_mem _ hm, hp', hl, by
          simp [visualize_event_probabilities, hp, herr]⟩
  · intro info hall
    induction info with
    | nil => rfl
    | cons kv rest ih =>
      obtain ⟨k, v⟩ := kv
      have hk : startsPROB k = false := hall (k, v) (by simp)
      simp only [visualize_event_probabilities, hk, Bool.false_eq_true, if_false]
      exact ih (fun kv h => hall kv (List.mem_cons_of_mem _ h))

/-- C4 witness: a two-valued `PROB_X` entry fails identifying key and length;
a mapping with no `PROB_` key extracts to the empty sequence. -/
theorem C4_malformed_prob_field_witness :
    (∃ (k' : String) (v' : List PFloat),
        (k', v') ∈ ([("PROB_X", [PFloat.fin 0, PFloat.fin 1])] :
            List (String × List PFloat)) ∧
        startsPROB k' = true ∧ v'.length ≠ 1 ∧
        visualize_event_probabilities [("PROB_X", [PFloat.fin 0, PFloat.fin 1])] =
          .error ⟨k', v'.length⟩) ∧
    visualize_event_probabilities [("X", [PFloat.fin 0])] = .ok [] :=
  ⟨C4_malformed_prob_field.1 _ "PROB_X" [PFloat.fin 0, PFloat.fin 1] (by simp)
      (by decide) (by decide),
   C4_malformed_prob_field.2 _ (by decide)⟩

/-- C7: every decoded record's index is its 0-based position among all
matched tokens in textual order, counted by a single counter shared across
the Reference and Alternate groups: the indices over both groups are a
permutation of `range n`, the record built for token `i` lands in the group
selected by its allele letter with index `i`, and the three-token example
(Alt, Alt, Ref in textual order) yields indices 0,1 in the Alternate group
and 2 in the Reference group. -/
theorem C7_shared_index_counter :
    (∀ s : String,
      (((obsDecode s).1 ++ (obsDecode s).2).map ObsEntry.obs_index).Perm
        (List.range (obsTokens s).length)) ∧
    (∀ (s : String) (i : Nat) (h : i < (obsTokens s).length),
      (isAltTok ((obsTokens s).get ⟨i, h⟩) = true →
        mkEntry i ((obsTokens s).get ⟨i, h⟩) ∈ (obsDecode s).2) ∧
      (isAltTok ((obsTokens s).get ⟨i, h⟩) = false →
        mkEntry i ((obsTokens s).get ⟨i, h⟩) ∈ (obsDecode s).1)) ∧
    (obsDecode "1As...*>^..2An...*>^..3Rn...*>^..").1.map ObsEntry.obs_index = [2] ∧
    (obsDecode "1As...*>^..2An...*>^..3Rn...*>^..").2.map ObsEntry.obs_index = [0, 1] := by
  refine ⟨fun s => ?_, fun s i h => ?_, by decide, by decide⟩
  · rw [List.range_eq_range']
    exact obsLoop_index_perm (obsTokens s) 0
  · simpa using obsLoop_index_mem (obsTokens s) 0 i h

/-- C7 witness: the membership part at the first token of the three-token
example (an Alternate token, index 0). -/
theorem C7_shared_index_counter_witness :
    mkEntry 0 ((obsTokens "1As...*>^..2An...*>^..3Rn...*>^..").get ⟨0, by decide⟩) ∈
      (obsDecode "1As...*>^..2An...*>^..3Rn...*>^..").2 :=
  (C7_shared_index_counter.2.1 "1As...*>^..2An...*>^..3Rn...*>^.." 0 (by decide)).1
    (by decide)

/-- C8: decode is a total function (no exception path): `None`, the empty
string and the placeholder `"."` decode to two empty groups; every
unrecognized strand / read-position / orientation / softclip / indel / odds
symbol is retained verbatim as the category label; classification of known
odds letters ignores case; and a position where no token matches is simply
skipped, leaving the remaining scan unchanged. -/
theorem C8_decode_total_leniency :
    obsDecodeField none = ([], []) ∧
    obsDecodeField (some "") = ([], []) ∧
    obsDecodeField (some ".") = ([], []) ∧
    (∀ c : Char, c ≠ '+' → c ≠ '-' → c ≠ '*' → strand_map c = String.singleton c) ∧
    (∀ c : Char, c ≠ '^' → c ≠ '*' → c ≠ '.' → read_pos_map c = String.singleton c) ∧
    (∀ c : Char, c ≠ '>' → c ≠ '<' → c ≠ '*' → c ≠ '!' →
      orientation_map c = String.singleton c) ∧
    (∀ c : Char, c ≠ '$' → c ≠ '.' → softclip_map c = String.singleton c) ∧
    (∀ c : Char, c ≠ '*' → c ≠ '.' → indel_map c = String.singleton c) ∧
    (kr_names 'n' = kr_names 'N' ∧ kr_names 'e' = kr_names 'E' ∧
     kr_names 'b' = kr_names 'B' ∧ kr_names 'p' = kr_names 'P' ∧
     kr_names 's' = kr_names 'S' ∧ kr_names 'v' = kr_names 'V') ∧
    (∀ c : Char,
      c ∉ ['N', 'E', 'B', 'P', 'S', 'V', 'n', 'e', 'b', 'p', 's', 'v'] →
      kr_names c = String.singleton c) ∧
    (∀ (c : Char) (cs : List Char), tryTok (c :: cs) = none →
      scanChars (c :: cs) = scanChars cs) := by
  refine ⟨rfl, rfl, rfl, ?_, ?_, ?_, ?_, ?_, ⟨rfl, rfl, rfl, rfl, rfl, rfl⟩, ?_, ?_⟩
  · intro c h1 h2 h3; simp [strand_map, h1, h2, h3]
  · intro c h1 h2 h3; simp [read_pos_map, h1, h2, h3]
  · intro c h1 h2 h3 h4; simp [orientation_map, h1, h2, h3, h4]
  · intro c h1 h2; simp [softclip_map, h1, h2]
  · intro c h1 h2; simp [indel_map, h1, h2]
  · intro c h
    simp only [List.mem_cons, List.mem_singleton, not_or] at h
    obtain ⟨hN, hE, hB, hP, hS, hV, hn, he, hb, hp, hs, hv⟩ := h
    simp [kr_names, hN, hE, hB, hP, hS, hV, hn, he, hb, hp, hs, hv]
  · intro c cs h
    show scanAux (c :: cs).length (c :: cs) = scanChars cs
    simp only [List.length_cons, scanAux, h]
    rfl

/-- C8 witness: passthrough of the unknown symbol `x` in every category map,
and token-skipping at a non-matching head character. -/
theorem C8_decode_total_leniency_witness :
    strand_map 'x' = String.singleton 'x' ∧
    read_pos_map 'x' = String.singleton 'x' ∧
    orientation_map 'x' = String.singleton 'x' ∧
    softclip_map 'x' = String.singleton 'x' ∧
    indel_map 'x' = String.singleton 'x' ∧
    kr_names 'x' = String.singleton 'x' ∧
    scanChars ['Z'] = scanChars [] :=
  ⟨C8_decode_total_leniency.2.2.2.1 'x' (by decide) (by decide) (by decide),
   C8_decode_total_leniency.2.2.2.2.1 'x' (by decide) (by decide) (by decide),
   C8_decode_total_leniency.2.2.2.2.2.1 'x' (by decide) (by decide) (by decide)
     (by decide),
   C8_decode_total_leniency.2.2.2.2.2.2.1 'x' (by decide) (by decide),
   C8_decode_total_leniency.2.2.2.2.2.2.2.1 'x' (by decide) (by decide),
   C8_decode_total_leniency.2.2.2.2.2.2.2.2.2.1 'x' (by decide),
   C8_decode_total_leniency.2.2.2.2.2.2.2.2.2.2 'Z' [] (by decide)⟩

/-- C5: on success, parse returns the Distribution rows followed by exactly
one PointEstimate-kind row at the point estimate, whose probability equals
the probability of the first Distribution row with frequency within absolute
tolerance 1e-3 of the point estimate, and 1.0 when no row lies within that
tolerance. -/
theorem C5_point_estimate_resolution (entries : List String) (pe : ℚ)
    (pts : List AFDPoint)
    (h : visualize_allele_frequency_distribution entries pe = .ok pts) :
    ∃ dpts : List AFDPoint,
      (∀ d ∈ dpts, d.kind = PKind.Distribution) ∧
      pts = dpts ++ [⟨pe,
        ((dpts.find? (fun d => decide (|d.freq - pe| < 1 / 1000))).map
          AFDPoint.prob).getD 1,
        PKind.PointEstimate⟩] := by
  rw [visualize_allele_frequency_distribution] at h
  cases hq : parseAFDq entries with
  | error e => rw [hq] at h; exact absurd h (by simp [Except.map])
  | ok ps =>
    rw [hq] at h
    simp only [Except.map, Except.ok.injEq] at h
    exact ⟨afdPoints ps, afdPoints_kind ps, h.symm⟩

/-- C5 witness: the resolution at the single-point distribution `0.0=0.0`
and point estimate 0. -/
theorem C5_point_estimate_resolution_witness :
    ∃ pts : List AFDPoint,
      visualize_allele_frequency_distribution ["0.0=0.0"] 0 = .ok pts ∧
      ∃ dpts : List AFDPoint,
        (∀ d ∈ dpts, d.kind = PKind.Distribution) ∧
        pts = dpts ++ [⟨0,
          ((dpts.find? (fun d => decide (|d.freq - 0| < 1 / 1000))).map
            AFDPoint.prob).getD 1,
          PKind.PointEstimate⟩] := by
  have hq : parseAFDq ["0.0=0.0"] = .ok [(⟨0, 1⟩, ⟨0, 1⟩)] := by decide
  have hok : visualize_allele_frequency_distribution ["0.0=0.0"] 0 =
      .ok (afdPoints [(⟨0, 1⟩, ⟨0, 1⟩)] ++ [⟨0,
        (((afdPoints [(⟨0, 1⟩, ⟨0, 1⟩)]).find?
            (fun d => decide (|d.freq - 0| < 1 / 1000))).map AFDPoint.prob).getD 1,
        PKind.PointEstimate⟩]) := by
    rw [visualize_allele_frequency_distribution, hq]; rfl
  exact ⟨_, hok, C5_point_estimate_resolution ["0.0=0.0"] 0 _ hok⟩

/-- C6: on success, parse emits one Distribution-kind point per
comma-separated `frequency=phred` token across all strings, in order, with
probability `10 ^ (-phred / 10)`; tokens containing no `=` are skipped, not
fatal; and `parse(["0.0=0.0,0.5=10.0"], point_estimate = 0.5)` yields
Distribution points (0, 1) and (0.5, 0.1) plus one PointEstimate point
(0.5, 0.1). -/
theorem C6_distribution_points :
    (∀ (entries : List String) (pe : ℚ) (pts : List AFDPoint),
        visualize_allele_frequency_distribution entries pe = .ok pts →
        pts.filter (fun d => decide (d.kind = PKind.Distribution)) =
          ((distTokens entries).filterMap (fun t => (parseTok t).toOption.join)).map
            (fun fp => ⟨fp.1.toRat, (10 : ℝ) ^ (-(fp.2.toRat : ℝ) / 10),
              PKind.Distribution⟩)) ∧
    (∀ t : List Char, t.contains '=' = false → parseTok t = .ok none) ∧
    visualize_allele_frequency_distribution ["0.0=0.0,0.5=10.0"] (1 / 2) =
      .ok [⟨0, 1, .Distribution⟩, ⟨1 / 2, 1 / 10, .Distribution⟩,
           ⟨1 / 2, 1 / 10, .PointEstimate⟩] := by
  refine ⟨?_, ?_, ?_⟩
  · intro entries pe pts h
    rw [visualize_allele_frequency_distribution] at h
    cases hq : parseAFDq entries with
    | error e => rw [hq] at h; exact absurd h (by simp [Except.map])
    | ok ps =>
      rw [hq] at h
      simp only [Except.map, Except.ok.injEq] at h
      rw [← h, List.filter_append]
      have hD : (afdPoints ps).filter (fun d => decide (d.kind = PKind.Distribution)) =
          afdPoints ps :=
        List.filter_eq_self.mpr (fun d hd => by simp [afdPoints_kind ps d hd])
      have hPE : List.filter (fun d => decide (d.kind = PKind.Distribution))
          [(⟨pe, ((afdPoints ps).find?
              (fun d => decide (|d.freq - pe| < 1 / 1000))).map AFDPoint.prob
              |>.getD 1, PKind.PointEstimate⟩ : AFDPoint)] = [] := by
        simp
      rw [hD, hPE, List.append_nil, parseToks_ok_eq _ ps hq]
      rfl
  · intro t h
    unfold parseTok
    rw [h]
    rfl
  · have hq : parseAFDq ["0.0=0.0,0.5=10.0"] =
        .ok [(⟨0, 1⟩, ⟨0, 1⟩), (⟨5, 1⟩, ⟨100, 1⟩)] := by decide
    have ht0 : Dec10.toRat ⟨0, 1⟩ = 0 := by norm_num [Dec10.toRat]
    have ht5 : Dec10.toRat ⟨5, 1⟩ = 1 / 2 := by norm_num [Dec10.toRat]
    have ht100 : Dec10.toRat ⟨100, 1⟩ = 10 := by norm_num [Dec10.toRat]
    have hf1 : decide (|(0 : ℚ) - 1 / 2| < 1 / 1000) = false := by
      rw [decide_eq_false_iff_not,
        show ((0 : ℚ) - 1 / 2) = -(1 / 2) by ring, abs_neg,
        abs_of_nonneg (by norm_num : (0 : ℚ) ≤ 1 / 2)]
      norm_num
    have hf2 : decide (|(1 / 2 : ℚ) - 1 / 2| < 1 / 1000) = true := by
      rw [decide_eq_true_eq]
      norm_num
    rw [visualize_allele_frequency_distribution, hq]
    simp only [Except.map, afdPoints, List.map_cons, List.map_nil, ht0, ht5,
      ht100, phred_prob_zero, phred_prob_ten, List.find?, hf1, hf2,
      List.cons_append, List.nil_append]
    rfl

/-- C6 witness: the per-token characterization instantiated at the example
input (its success hypothesis discharged by the example part of the
theorem), and skipping of a concrete token with no `=`. -/
theorem C6_distribution_points_witness :
    (([⟨0, 1, .Distribution⟩, ⟨1 / 2, 1 / 10, .Distribution⟩,
       ⟨1 / 2, 1 / 10, .PointEstimate⟩] : List AFDPoint).filter
        (fun d => decide (d.kind = PKind.Distribution)) =
      ((distTokens ["0.0=0.0,0.5=10.0"]).filterMap
          (fun t => (parseTok t).toOption.join)).map
        (fun fp => ⟨fp.1.toRat, (10 : ℝ) ^ (-(fp.2.toRat : ℝ) / 10),
          PKind.Distribution⟩)) ∧
    parseTok "abc".data = .ok none :=
  ⟨C6_distribution_points.1 ["0.0=0.0,0.5=10.0"] (1 / 2) _
      C6_distribution_points.2.2,
   C6_distribution_points.2.1 "abc".data (by decide)⟩
